import Mathlib

/-!
Verification of the virgo4 search aggregator against its specification.

This file shallowly embeds the request-path and background code of the
aggregator: the per-pool search fan-out and collection loop of the
Search handler, the exclusion predicate, the result-ordering comparators
and the sort they drive, the transport-error shaping of servicePost, the
per-pool result shaping of searchPool, the identify/lookup pipeline with
language fallback, the pools middleware, and the filter-cache refresh.

Modelling conventions:
- Go machine integers are modelled as Int (hit totals and sequences never
  approach 64-bit overflow on this code path) and HTTP status codes as Nat.
- JSON numbers found in the per-pool debug map are modelled as rationals;
  a Go float64 obtained from JSON is an exact decimal whose ordering
  agrees with the rational ordering, and the failed type assertion
  (non-numeric value) yields 0 exactly as in the source.
- Outbound HTTP is abstracted as a value describing the transport outcome
  (error text, or status/body/header); body parsing is abstracted as a
  function returning Option, none meaning json.Unmarshal failed.
- go sort.Sort with a comparator Less is modelled by sortGo, the
  adjacent-swap insertion sort that the Go standard library itself runs
  on the short slices produced here (one element per pool); it moves each
  element left past its predecessor exactly while Less holds.
- Channel collection order is nondeterministic in the source, so every
  collection loop takes the arrival order as an explicit list parameter.
-/

/-- Character-list test that the second list begins with the first,
mirroring the byte test of go strings.HasPrefix. -/
def startsL : List Char → List Char → Bool
  | [], _ => true
  | _ :: _, [] => false
  | a :: as, b :: bs => a == b && startsL (as) (bs)

/-- Character-list substring test mirroring go strings.Contains. -/
def hasSubL (needle : List Char) : List Char → Bool
  | [] => startsL needle []
  | c :: rest => startsL needle (c :: rest) || hasSubL needle rest

/-- go strings.Contains hay needle. -/
def containsStr (hay needle : String) : Bool :=
  hasSubL needle.data hay.data

/-- go strings.HasPrefix s pre. -/
def hasPrefixStr (s pre : String) : Bool :=
  startsL pre.data s.data

/-! ## The comparator-driven sort

go sort.Sort on the slices built by this service (one entry per pool)
runs its insertion sort: element i is swapped left past element i-1
exactly while Less(i, i-1) holds.  insertRev performs one such insertion
into the reversed already-processed prefix, and sortGo folds it over the
input. -/

/-- Insert x into the reversed prefix acc, moving past each y while
less x y holds, exactly as one outer step of go insertion sort. -/
def insertRev (less : α → α → Bool) (x : α) : List α → List α
  | [] => [x]
  | y :: ys => if less x y then y :: insertRev less x ys else x :: y :: ys

/-- The sort performed by go sort.Sort with comparator less on the short
slices of this service. -/
def sortGo (less : α → α → Bool) (l : List α) : List α :=
  (l.foldl (fun acc x => insertRev less x acc) []).reverse

/-! ## Data model (src/cmd/api.go and the v4api envelope) -/

/-- One entry of the attributes list of a pool identity. -/
structure PoolAttribute where
  name : String
  supported : Bool
deriving DecidableEq, Repr

/-- v4api.PoolIdentity: the client-visible identity of a pool. url is the
public URL. -/
structure PoolIdentity where
  id : String
  name : String
  url : String
  source : String
  attributes : List PoolAttribute
deriving DecidableEq, Repr

/-- pool (src/cmd/api.go): the API identity extended with the private URL,
the registry sequence and the external flag. -/
structure Pool where
  v4id : PoolIdentity
  privateURL : String
  isExternal : Bool
  sequence : Int
deriving DecidableEq, Repr

/-- dbPool (src/cmd/api.go): one row of the sources table joined with its
source-set sequence. -/
structure DbPool where
  rowID : Int
  privateURL : String
  publicURL : String
  name : String
  sequence : Int
deriving DecidableEq, Repr

/-- v4api.Pagination. -/
structure Pagination where
  start : Int
  rows : Int
  total : Int
deriving DecidableEq, Repr

/-- A value of the JSON debug map attached to a pool result. num carries a
JSON number; other stands for any non-numeric JSON value, for which the
go float64 type assertion yields 0. -/
inductive DebugValue where
  | num (q : ℚ)
  | other
deriving DecidableEq, Repr

/-- v4api.PoolResult: the per-pool response envelope, restricted to the
fields the aggregator reads or writes. -/
structure PoolResult where
  serviceURL : String
  poolName : String
  elapsedMS : Int
  pagination : Pagination
  confidence : String
  debug : List (String × DebugValue)
  warnings : List String
  statusCode : Nat
  statusMessage : String
  contentLanguage : String
deriving DecidableEq, Repr

/-- v4api.SearchPreferences. -/
structure SearchPreferences where
  targetPool : String
  excludePools : List String
deriving DecidableEq, Repr

/-- MasterResponse (src/cmd/api.go), restricted to the aggregate fields
the collection loop writes. -/
structure MasterResponse where
  pools : List PoolIdentity
  totalHits : Int
  results : List PoolResult
  warnings : List String
deriving DecidableEq, Repr

/-- NewSearchResponse (src/cmd/api.go): empty lists and a zero hit count. -/
def newSearchResponse : MasterResponse :=
  { pools := [], totalHits := 0, results := [], warnings := [] }

/-- NewPoolResult (src/cmd/api.go): a result seeded from the pool identity;
every other field keeps its go zero value. -/
def newPoolResult (p : Pool) (ms : Int) : PoolResult :=
  { serviceURL := p.v4id.url, poolName := p.v4id.id, elapsedMS := ms,
    pagination := { start := 0, rows := 0, total := 0 }, confidence := "",
    debug := [], warnings := [], statusCode := 0, statusMessage := "",
    contentLanguage := "" }

/-! ## Ordering strategies (src/cmd/sort.go, src/unnamed/part_004) -/

/-- ConfidenceIndex (src/unnamed/part_004): position of the confidence
string in low, medium, high, exact; anything else maps to 0. -/
def confidenceIndex (pr : PoolResult) : Nat :=
  match ["low", "medium", "high", "exact"].indexOf? pr.confidence with
  | some idx => idx
  | none => 0

/-- The go expression maxScore, _ := Debug[max_score].(float64): the
numeric value under key max_score, or 0 when missing or non-numeric. -/
def maxScore (pr : PoolResult) : ℚ :=
  match pr.debug.lookup "max_score" with
  | some (.num q) => q
  | _ => 0

/-- The confidence, max-score and total comparison steps of
byConfidence.Less (src/cmd/sort.go lines 78-98), after the target checks. -/
def keyGT (a b : PoolResult) : Bool :=
  if confidenceIndex a < confidenceIndex b then false
  else if confidenceIndex b < confidenceIndex a then true
  else if maxScore a < maxScore b then false
  else if maxScore b < maxScore a then true
  else decide (b.pagination.total < a.pagination.total)

/-- The lexicographic tuple order of the specification: the tuple
(confidence_index, max_score, total) of a is greater than or equal to
that of b. -/
def keyGE (a b : PoolResult) : Bool :=
  decide (confidenceIndex b < confidenceIndex a) ||
    (decide (confidenceIndex a = confidenceIndex b) &&
      (decide (maxScore b < maxScore a) ||
        (decide (maxScore a = maxScore b) &&
          decide (b.pagination.total ≤ a.pagination.total))))

/-- byConfidence.Less (src/cmd/sort.go): bubble the target pool to the
top, then compare by confidence, then max score, then total. -/
def byConfidenceLess (targetURL : String) (a b : PoolResult) : Bool :=
  if targetURL = a.serviceURL then true
  else if targetURL = b.serviceURL then false
  else keyGT a b

/-- byName.Less (src/cmd/sort.go). -/
def byNameLess (a b : PoolResult) : Bool :=
  decide (a.poolName < b.poolName)

/-- The lookup loop of bySequence.Less: scan the whole pool set and keep
the last pool whose id equals the result's pool name. -/
def lookupPool (pools : List Pool) (name : String) : Option Pool :=
  pools.foldl (fun cur p => if p.v4id.id = name then some p else cur) none

/-- bySequence.Less (src/cmd/sort.go): order by pool sequence; treat a
failed lookup on either side as not-less. -/
def bySequenceLess (pools : List Pool) (a b : PoolResult) : Bool :=
  match lookupPool pools a.poolName, lookupPool pools b.poolName with
  | some pa, some pb => decide (pa.sequence < pb.sequence)
  | _, _ => false

/-- The strategy selection of Search (src/unnamed/part_006 lines 119-127):
any sources query value other than default sorts by sequence, and default
sorts by confidence.  Gin returns the empty string for an absent query
parameter. -/
def sortPoolResults (sourcesParam : String) (pools : List Pool)
    (targetURL : String) (results : List PoolResult) : List PoolResult :=
  if sourcesParam ≠ "default" then sortGo (bySequenceLess pools) results
  else sortGo (byConfidenceLess targetURL) results

/-! ## Fan-out and collection (src/unnamed/part_006 Search) -/

/-- isPoolExcluded (src/unnamed/part_006): some entry of the exclude list
equals the pool's public URL or its id. -/
def isPoolExcluded (prefs : SearchPreferences) (p : Pool) : Bool :=
  prefs.excludePools.any (fun identifier =>
    identifier == p.v4id.url || identifier == p.v4id.id)

/-- State built by the fan-out loop: the identities appended to the
response and the pools actually dispatched. -/
structure FanOutState where
  pools : List PoolIdentity
  dispatched : List Pool
deriving DecidableEq, Repr

/-- The fan-out loop of Search (src/unnamed/part_006 lines 78-87): append
every pool identity to the response, skip excluded pools, dispatch the
rest. -/
def fanOutPools (prefs : SearchPreferences) (pools : List Pool) : FanOutState :=
  pools.foldl
    (fun st p =>
      let st1 := { st with pools := st.pools ++ [p.v4id] }
      if isPoolExcluded prefs p then st1
      else { st1 with dispatched := st1.dispatched ++ [p] })
    { pools := [], dispatched := [] }

/-- One iteration of the collection loop of Search (src/unnamed/part_006
lines 91-115): append the result; on 200 add its total to the aggregate,
otherwise append its status message to the warnings. -/
def collectResult (out : MasterResponse) (r : PoolResult) : MasterResponse :=
  let out1 := { out with results := out.results ++ [r] }
  if r.statusCode = 200 then
    { out1 with totalHits := out1.totalHits + r.pagination.total }
  else
    { out1 with warnings := out1.warnings ++ [r.statusMessage] }

/-- The collection loop over the pool results in arrival order. -/
def collectResults (out : MasterResponse) (rs : List PoolResult) : MasterResponse :=
  rs.foldl collectResult out

/-! ## Transport and per-pool result shaping (src/unnamed/part_016
servicePost, src/unnamed/part_006 searchPool) -/

/-- The outcome of one outbound HTTP call: a transport error with its go
error text, or a response with status, body and Content-Language header. -/
inductive TransportReply where
  | failure (errText : String)
  | success (status : Nat) (body : String) (contentLang : String)
deriving DecidableEq, Repr

/-- timedResponse (src/unnamed/part_016). -/
structure TimedResponse where
  statusCode : Nat
  contentLanguage : String
  response : String
  elapsedMS : Int
deriving DecidableEq, Repr

/-- servicePost (src/unnamed/part_016 lines 180-225): shape a transport
outcome.  A transport error defaults to 500 with the error text, a text
containing Timeout becomes 408, else one containing connection refused
becomes 503; a response passes its status and body through, and on 200
the content language falls back from the response header to the
forwarded Accept-Language header to en-US. -/
def servicePost (url : String) (acceptLangHeader : String)
    (reply : TransportReply) (elapsedMS : Int) : TimedResponse :=
  match reply with
  | .failure errText =>
    if containsStr errText "Timeout" then
      { statusCode := 408, contentLanguage := "",
        response := "POST " ++ url ++ " search timed out", elapsedMS := elapsedMS }
    else if containsStr errText "connection refused" then
      { statusCode := 503, contentLanguage := "",
        response := url ++ " is offline", elapsedMS := elapsedMS }
    else
      { statusCode := 500, contentLanguage := "", response := errText,
        elapsedMS := elapsedMS }
  | .success status body contentLang =>
    if status ≠ 200 then
      { statusCode := status, contentLanguage := "", response := body,
        elapsedMS := elapsedMS }
    else
      { statusCode := 200,
        contentLanguage :=
          if contentLang ≠ "" then contentLang
          else if acceptLangHeader ≠ "" then acceptLangHeader
          else "en-US",
        response := body, elapsedMS := elapsedMS }

/-- The search URL built by searchPool (src/unnamed/part_006 line 168). -/
def searchURL (p : Pool) : String :=
  p.privateURL ++ "/api/search"

/-- The response shaping of searchPool (src/unnamed/part_006 lines
195-216): start from NewPoolResult; a non-200 transport status and body
pass through; a 200 body that fails to parse becomes 500 Malformed search
response; a parsed body keeps its fields with status 200, the measured
elapsed time and the transport content language. -/
def searchPoolResult (p : Pool) (postResp : TimedResponse)
    (parse : String → Option PoolResult) : PoolResult :=
  let results := newPoolResult p postResp.elapsedMS
  if postResp.statusCode ≠ 200 then
    { results with statusCode := postResp.statusCode,
                   statusMessage := postResp.response }
  else
    match parse postResp.response with
    | none =>
      { results with statusCode := 500,
                     statusMessage := "Malformed search response" }
    | some parsed =>
      { parsed with statusCode := 200, elapsedMS := postResp.elapsedMS,
                    contentLanguage := postResp.contentLanguage }

/-- A full per-pool search task: servicePost against the pool's private
search URL followed by the searchPool shaping. -/
def searchPoolTask (p : Pool) (acceptLangHeader : String)
    (reply : TransportReply) (elapsedMS : Int)
    (parse : String → Option PoolResult) : PoolResult :=
  searchPoolResult p (servicePost (searchURL p) acceptLangHeader reply elapsedMS) parse

/-! ## Identify pipeline and middleware (src/cmd/pools.go) -/

/-- Outcome of one GET identify attempt in one language: a transport or
request-construction error, a non-200 status, an unparseable body, or a
parsed identity. -/
inductive IdOutcome where
  | transportErr
  | badStatus (code : Nat)
  | parseErr
  | identified (ident : PoolIdentity)
deriving DecidableEq, Repr

/-- An attempt that did not produce an identity. -/
def idOutcomeFailed : IdOutcome → Bool
  | .identified _ => false
  | _ => true

/-- The pool built by identifyPool on success (src/cmd/pools.go lines
149-159): the parsed identity with id and url overridden from the
registry row, the private URL and sequence from the row, and the
external flag read from the external-hold attribute. -/
def mkIdentifiedPool (dbp : DbPool) (ident : PoolIdentity) : Pool :=
  { v4id := { ident with id := dbp.name, url := dbp.publicURL },
    privateURL := dbp.privateURL,
    sequence := dbp.sequence,
    isExternal := ident.attributes.any (fun attr =>
      attr.name == "external_hold" && attr.supported) }

/-- The language list tried by identifyPool (src/cmd/pools.go lines
123-126): the request language, then en-US when they differ. -/
def identifyLanguages (language : String) : List String :=
  if language ≠ "en-US" then [language, "en-US"] else [language]

/-- The attempt loop of identifyPool: the first language whose attempt
yields an identity wins; every failure kind falls through to the next
language. -/
def firstIdentified (attempt : String → IdOutcome) : List String → Option PoolIdentity
  | [] => none
  | lang :: rest =>
    match attempt lang with
    | .identified ident => some ident
    | _ => firstIdentified attempt rest

/-- identifyPool (src/cmd/pools.go lines 121-175) as a function of the
per-language attempt outcomes: some pool on the first successful
identification, none when every attempted language failed. -/
def identifyPool (dbp : DbPool) (language : String)
    (attempt : String → IdOutcome) : Option Pool :=
  (firstIdentified attempt (identifyLanguages language)).map (mkIdentifiedPool dbp)

/-- The collection loop of lookupPools (src/cmd/pools.go lines 99-112)
over the identify results in arrival order: keep the successful pools;
when none succeeded, fail with no pools found. -/
def lookupPoolsCollect (arrivals : List (Option Pool)) : Except String (List Pool) :=
  let pools := arrivals.filterMap id
  if pools.isEmpty then .error "no pools found" else .ok pools

/-- What PoolsMiddleware does with the request. -/
inductive MiddlewareStep where
  | abort (status : Nat)
  | proceed (pools : List Pool)
deriving DecidableEq, Repr

/-- PoolsMiddleware (src/cmd/pools.go lines 21-44): any lookup error
aborts the request with 404 before any downstream handler runs; success
stores the pools in the request context and proceeds. -/
def poolsMiddleware (lookup : Except String (List Pool)) : MiddlewareStep :=
  match lookup with
  | .error _ => .abort 404
  | .ok pools => .proceed pools

/-! ## Filter cache refresh (src/unnamed/part_007) -/

/-- v4api.Facet: one filter as returned by a pool. -/
structure FacetBucket where
  value : String
  count : Int
deriving DecidableEq, Repr

/-- One pool-supplied filter. -/
structure Facet where
  id : String
  name : String
  sort : String
  hidden : Bool
  buckets : List FacetBucket
deriving DecidableEq, Repr

/-- v4api.QueryFilter: one merged filter of the published snapshot. -/
structure QueryFilter where
  id : String
  label : String
  sources : List String
  hidden : Bool
  values : List FacetBucket
deriving DecidableEq, Repr

/-- The ordered source-kind preference list of refreshCache
(src/unnamed/part_007 line 188). -/
def filterSourceKinds : List String := ["solr", "solr-images", "eds"]

/-- The filter ids kept from an eds pool (src/unnamed/part_007 lines
367-373). -/
def edsAllowList : List String :=
  ["ContentProvider", "SubjectGeographic", "Language", "Publisher", "SourceType"]

/-- The id normalization of getPoolFilters (src/unnamed/part_007 lines
423-429): prepend Filter when missing. -/
def normalizeFacetID (f : Facet) : Facet :=
  if hasPrefixStr f.id "Filter" then f else { f with id := "Filter" ++ f.id }

/-- getPoolFilters (src/unnamed/part_007 lines 339-434) as a function of
the fetch outcome (none covers a mint failure, a non-200 status and an
unparseable body): an unhandled source kind or an empty returned list
yields nothing; an eds list is restricted to the allow-list; every kept
id is normalized. -/
def getPoolFilters (p : Pool) (fetch : Pool → Option (List Facet)) : Option (List Facet) :=
  if p.v4id.source = "eds" ∨ hasPrefixStr p.v4id.source "solr" then
    match fetch p with
    | none => none
    | some facetList =>
      if facetList.isEmpty then none
      else
        let kept :=
          if p.v4id.source = "eds" then
            facetList.filter (fun f => edsAllowList.contains f.id)
          else facetList
        some (kept.map normalizeFacetID)
  else none

/-- The representative selection of refreshCache (src/unnamed/part_007
lines 195-204): the first pool of the given source kind in pool-set
order. -/
def findRepresentative (pools : List Pool) (source : String) : Option Pool :=
  pools.find? (fun p => p.v4id.source == source)

/-- Accumulate one bucket count into the per-value count list, mirroring
the valuesMap accumulation of refreshCache. -/
def bumpCount : List FacetBucket → String → Int → List FacetBucket
  | [], v, c => [{ value := v, count := c }]
  | b :: rest, v, c =>
    if b.value = v then { value := b.value, count := b.count + c } :: rest
    else b :: bumpCount rest v c

/-- First-appearance order of filter ids across the contributing sources
(refreshCache filterOrder). -/
def firstAppearanceOrder (ids : List String) : List String :=
  ids.foldl (fun acc x => if acc.contains x then acc else acc ++ [x]) []

/-- The alpha bucket comparator of refreshCache (values are distinct). -/
def bucketAlphaLess (a b : FacetBucket) : Bool :=
  decide (a.value < b.value)

/-- The count bucket comparator of refreshCache: count descending, ties
by value ascending. -/
def bucketCountLess (a b : FacetBucket) : Bool :=
  if b.count < a.count then true
  else if a.count < b.count then false
  else decide (a.value < b.value)

/-- The merge step of refreshCache (src/unnamed/part_007 lines 220-323):
group the contributed filters by id in first-appearance order across the
source kinds; within a group take the first non-empty label and sort
hint, or-together hidden, list the contributing sources in order, sum
the bucket counts per value and sort by the chosen hint. -/
def mergeFilters (resps : List (String × List Facet)) : List QueryFilter :=
  let pairs := resps.flatMap (fun sr => sr.2.map (fun f => (sr.1, f)))
  let order := firstAppearanceOrder (pairs.map (fun q => q.2.id))
  order.map (fun fid =>
    let group := pairs.filter (fun q => q.2.id = fid)
    let bucketSort := ((group.map (fun q => q.2.sort)).find? (fun s => s != "")).getD ""
    let counts := group.foldl
      (fun acc q => q.2.buckets.foldl
        (fun acc2 b => bumpCount acc2 b.value b.count) acc) []
    { id := fid,
      label := ((group.map (fun q => q.2.name)).find? (fun s => s != "")).getD "",
      sources := group.map (fun q => q.1),
      hidden := group.any (fun q => q.2.hidden),
      values :=
        if bucketSort = "alpha" then sortGo bucketAlphaLess counts
        else sortGo bucketCountLess counts })

/-- One source kind's contribution to a refresh tick: its first
representative pool's successful non-empty filter list, when both
exist. -/
def gatherStep (pools : List Pool) (fetch : Pool → Option (List Facet))
    (source : String) : Option (String × List Facet) :=
  match findRepresentative pools source with
  | none => none
  | some p =>
    match getPoolFilters p fetch with
    | none => none
    | some fl => some (source, fl)

/-- The per-tick responses gathered by refreshCache, keyed by source kind
in preference order. -/
def gatherFilterResps (pools : List Pool)
    (fetch : Pool → Option (List Facet)) : List (String × List Facet) :=
  filterSourceKinds.filterMap (gatherStep pools fetch)

/-- refreshCache (src/unnamed/part_007 lines 171-326): dispatch one query
per represented source kind, and replace the snapshot with the merge only
when the number of gathered responses equals the length of the full
source-kind list; otherwise keep the previous snapshot. -/
def refreshCache (prev : List QueryFilter) (pools : List Pool)
    (fetch : Pool → Option (List Facet)) : List QueryFilter :=
  let resps := gatherFilterResps pools fetch
  if resps.length = filterSourceKinds.length then mergeFilters resps else prev

/-! ## Generic facts about sortGo -/

theorem mem_insertRev {α : Type} (less : α → α → Bool) (x a : α) :
    ∀ acc : List α, a ∈ insertRev less x acc ↔ a = x ∨ a ∈ acc
  | [] => by simp [insertRev]
  | y :: ys => by
    simp only [insertRev]
    split
    · simp only [List.mem_cons, mem_insertRev less x a ys]
      tauto
    · simp only [List.mem_cons]

theorem insertRev_perm {α : Type} (less : α → α → Bool) (x : α) :
    ∀ acc : List α, List.Perm (insertRev less x acc) (x :: acc)
  | [] => by simp [insertRev]
  | y :: ys => by
    simp only [insertRev]
    split
    · exact ((insertRev_perm less x ys).cons y).trans (List.Perm.swap x y ys)
    · exact List.Perm.refl _

theorem foldl_insertRev_perm {α : Type} (less : α → α → Bool) :
    ∀ (l acc : List α),
      List.Perm (l.foldl (fun acc x => insertRev less x acc) acc) (l ++ acc)
  | [], acc => by simp
  | x :: rest, acc => by
    have h1 := foldl_insertRev_perm less rest (insertRev less x acc)
    have h2 : List.Perm (rest ++ insertRev less x acc) (rest ++ x :: acc) :=
      List.Perm.append_left rest (insertRev_perm less x acc)
    simpa using (h1.trans h2).trans List.perm_middle

theorem sortGo_perm {α : Type} (less : α → α → Bool) (l : List α) :
    List.Perm (sortGo less l) l := by
  unfold sortGo
  have h := foldl_insertRev_perm less l []
  simpa using (List.reverse_perm _).trans h

/-- The two-part ordering invariant maintained inside the reversed prefix:
a matched element is never followed by an unmatched one, and two unmatched
elements are never an inversion of the comparator. -/
def bubbleRel {α : Type} (less : α → α → Bool) (matched : α → Bool) (p q : α) : Prop :=
  (matched p = true → matched q = true) ∧
    (matched p = false → matched q = false → less p q = false)

theorem pairwise_insertRev {α : Type} {less : α → α → Bool} {matched : α → Bool}
    (hA : ∀ a b, matched a = true → less a b = true)
    (hB : ∀ a b, matched a = false → matched b = true → less a b = false)
    (hC : ∀ a b, matched a = false → matched b = false → less a b = true → less b a = false)
    (hD : ∀ a b c, matched a = false → matched b = false → matched c = false →
      less a b = false → less b c = false → less a c = false)
    (x : α) :
    ∀ acc : List α, List.Pairwise (bubbleRel less matched) acc →
      List.Pairwise (bubbleRel less matched) (insertRev less x acc)
  | [], _ => by simp [insertRev, bubbleRel]
  | y :: ys, h => by
    rcases List.pairwise_cons.mp h with ⟨hy, hys⟩
    simp only [insertRev]
    split
    case isTrue hxy =>
      refine List.pairwise_cons.mpr ⟨?_, pairwise_insertRev hA hB hC hD x ys hys⟩
      intro w hw
      rcases (mem_insertRev less x w ys).mp hw with hwx | hwys
      · subst hwx
        constructor
        · intro hmy
          by_contra hmx
          have hmx' : matched w = false := by
            cases hmw : matched w
            · rfl
            · exact absurd hmw hmx
          have := hB w y hmx' hmy
          rw [this] at hxy
          exact Bool.false_ne_true hxy
        · intro hmy hmx
          exact hC w y hmx hmy hxy
      · exact hy w hwys
    case isFalse hxy =>
      have hxy' : less x y = false := by
        cases hv : less x y
        · rfl
        · exact absurd hv hxy
      have hmx : matched x = false := by
        cases hmx : matched x
        · rfl
        · have := hA x y hmx
          rw [this] at hxy'
          exact absurd hxy'.symm Bool.false_ne_true
      refine List.pairwise_cons.mpr ⟨?_, h⟩
      intro w hw
      constructor
      · intro hmx'
        rw [hmx] at hmx'
        exact absurd hmx' Bool.false_ne_true
      · intro _ hmw
        rcases List.mem_cons.mp hw with hwy | hwys
        · subst hwy
          exact hxy'
        · cases hmy : matched y
          · have hyz := (hy w hwys).2 hmy hmw
            exact hD x y w hmx hmy hmw hxy' hyz
          · have := (hy w hwys).1 hmy
            rw [hmw] at this
            exact absurd this Bool.false_ne_true

theorem pairwise_foldl_insertRev {α : Type} {less : α → α → Bool} {matched : α → Bool}
    (hA : ∀ a b, matched a = true → less a b = true)
    (hB : ∀ a b, matched a = false → matched b = true → less a b = false)
    (hC : ∀ a b, matched a = false → matched b = false → less a b = true → less b a = false)
    (hD : ∀ a b c, matched a = false → matched b = false → matched c = false →
      less a b = false → less b c = false → less a c = false) :
    ∀ (l acc : List α), List.Pairwise (bubbleRel less matched) acc →
      List.Pairwise (bubbleRel less matched)
        (l.foldl (fun acc x => insertRev less x acc) acc)
  | [], _, h => h
  | x :: rest, acc, h =>
    pairwise_foldl_insertRev hA hB hC hD rest (insertRev less x acc)
      (pairwise_insertRev hA hB hC hD x acc h)

/-- Every pair of the sortGo output satisfies the flipped bubble
invariant: a matched element never sits below an unmatched one, and two
unmatched elements always appear comparator-consistently. -/
theorem sortGo_pairwise {α : Type} {less : α → α → Bool} {matched : α → Bool}
    (hA : ∀ a b, matched a = true → less a b = true)
    (hB : ∀ a b, matched a = false → matched b = true → less a b = false)
    (hC : ∀ a b, matched a = false → matched b = false → less a b = true → less b a = false)
    (hD : ∀ a b c, matched a = false → matched b = false → matched c = false →
      less a b = false → less b c = false → less a c = false)
    (l : List α) :
    List.Pairwise (fun u v => bubbleRel less matched v u) (sortGo less l) := by
  unfold sortGo
  exact List.pairwise_reverse.mpr
    (pairwise_foldl_insertRev hA hB hC hD l [] List.Pairwise.nil)

theorem chain_insertRev_asym {α : Type} {less : α → α → Bool}
    (hAs : ∀ a b, less a b = true → less b a = false) (x : α) :
    ∀ acc : List α, List.Chain' (fun p q => less p q = false) acc →
      List.Chain' (fun p q => less p q = false) (insertRev less x acc)
  | [], _ => by simp [insertRev]
  | y :: ys, h => by
    simp only [insertRev]
    split
    case isTrue hxy =>
      have htail : List.Chain' (fun p q => less p q = false) ys := h.tail
      have hrec := chain_insertRev_asym hAs x ys htail
      refine List.chain'_cons'.mpr ⟨?_, hrec⟩
      intro b hb
      match ys, hb with
      | [], hb =>
        simp only [insertRev, List.head?_cons, Option.mem_def, Option.some.injEq] at hb
        subst hb
        exact hAs x y hxy
      | z :: zs, hb =>
        simp only [insertRev] at hb
        split at hb
        · simp only [List.head?_cons, Option.mem_def, Option.some.injEq] at hb
          subst hb
          exact (List.chain'_cons.mp h).1
        · simp only [List.head?_cons, Option.mem_def, Option.some.injEq] at hb
          subst hb
          exact hAs x y hxy
    case isFalse hxy =>
      have hxy' : less x y = false := by
        cases hv : less x y
        · rfl
        · exact absurd hv hxy
      exact List.chain'_cons.mpr ⟨hxy', h⟩

theorem chain_foldl_insertRev_asym {α : Type} {less : α → α → Bool}
    (hAs : ∀ a b, less a b = true → less b a = false) :
    ∀ (l acc : List α), List.Chain' (fun p q => less p q = false) acc →
      List.Chain' (fun p q => less p q = false)
        (l.foldl (fun acc x => insertRev less x acc) acc)
  | [], _, h => h
  | x :: rest, acc, h =>
    chain_foldl_insertRev_asym hAs rest (insertRev less x acc)
      (chain_insertRev_asym hAs x acc h)

/-- With an asymmetric comparator, the sortGo output has no adjacent
inversion. -/
theorem sortGo_chain_asym {α : Type} {less : α → α → Bool}
    (hAs : ∀ a b, less a b = true → less b a = false) (l : List α) :
    List.Chain' (fun u v => less v u = false) (sortGo less l) := by
  unfold sortGo
  exact List.chain'_reverse.mpr
    (chain_foldl_insertRev_asym hAs l [] trivial)

theorem foldl_insertRev_of_chain {α : Type} {less : α → α → Bool} :
    ∀ (l : List α) (y : α) (ys : List α),
      List.Chain (fun a b => less b a = false) y l →
      l.foldl (fun acc x => insertRev less x acc) (y :: ys) = l.reverse ++ y :: ys
  | [], _, _, _ => by simp
  | x :: rest, y, ys, h => by
    rcases List.chain_cons.mp h with ⟨hxy, hrest⟩
    have hstep : insertRev less x (y :: ys) = x :: y :: ys := by
      simp [insertRev, hxy]
    simp only [List.foldl_cons, hstep]
    rw [foldl_insertRev_of_chain rest x (y :: ys) hrest]
    simp

/-- A list with no adjacent inversion is a fixed point of sortGo. -/
theorem sortGo_of_chain {α : Type} {less : α → α → Bool} :
    ∀ l : List α, List.Chain' (fun u v => less v u = false) l → sortGo less l = l
  | [], _ => rfl
  | y :: rest, h => by
    unfold sortGo
    have hch : List.Chain (fun a b => less b a = false) y rest := h
    simp only [List.foldl_cons]
    have hbase : insertRev less y [] = [y] := rfl
    rw [hbase, foldl_insertRev_of_chain rest y [] hch]
    simp

/-- With an asymmetric comparator, re-sorting sorted output changes
nothing. -/
theorem sortGo_idem_of_asym {α : Type} {less : α → α → Bool}
    (hAs : ∀ a b, less a b = true → less b a = false) (l : List α) :
    sortGo less (sortGo less l) = sortGo less l :=
  sortGo_of_chain _ (sortGo_chain_asym hAs l)

/-! ## Properties of the comparators -/

theorem keyGT_eq_true_iff (a b : PoolResult) :
    keyGT a b = true ↔
      (confidenceIndex b < confidenceIndex a ∨
        (confidenceIndex a = confidenceIndex b ∧
          (maxScore b < maxScore a ∨
            (maxScore a = maxScore b ∧ b.pagination.total < a.pagination.total)))) := by
  unfold keyGT
  split_ifs with h1 h2 h3 h4
  · simp only [Bool.false_eq_true, false_iff]
    push_neg
    constructor
    · omega
    · intro hle
      exact absurd hle (by omega)
  · simp only [true_iff]
    exact Or.inl h2
  · simp only [Bool.false_eq_true, false_iff]
    push_neg
    refine ⟨by omega, fun hci => ⟨by linarith, fun hms => absurd hms (by linarith)⟩⟩
  · simp only [true_iff]
    exact Or.inr ⟨by omega, Or.inl h4⟩
  · simp only [decide_eq_true_eq]
    constructor
    · intro ht
      exact Or.inr ⟨by omega, Or.inr ⟨by linarith, ht⟩⟩
    · rintro (hci | ⟨_, hms | ⟨_, ht⟩⟩)
      · omega
      · linarith
      · exact ht

theorem keyGE_eq_true_iff (a b : PoolResult) :
    keyGE a b = true ↔
      (confidenceIndex b < confidenceIndex a ∨
        (confidenceIndex a = confidenceIndex b ∧
          (maxScore b < maxScore a ∨
            (maxScore a = maxScore b ∧ b.pagination.total ≤ a.pagination.total)))) := by
  unfold keyGE
  simp only [Bool.or_eq_true, Bool.and_eq_true, decide_eq_true_eq]

theorem keyGT_asym (a b : PoolResult) (h : keyGT a b = true) : keyGT b a = false := by
  by_contra hcon
  have hba : keyGT b a = true := by
    cases hv : keyGT b a
    · exact absurd hv hcon
    · rfl
  rcases (keyGT_eq_true_iff a b).mp h with hci | ⟨hcieq, hms | ⟨hmseq, ht⟩⟩ <;>
    rcases (keyGT_eq_true_iff b a).mp hba with hci' | ⟨hcieq', hms' | ⟨hmseq', ht'⟩⟩ <;>
      first
        | omega
        | linarith

theorem keyGT_negtrans (a b c : PoolResult)
    (hab : keyGT a b = false) (hbc : keyGT b c = false) : keyGT a c = false := by
  by_contra hcon
  have hac : keyGT a c = true := by
    cases hv : keyGT a c
    · exact absurd hv hcon
    · rfl
  have hab' : ¬ (confidenceIndex b < confidenceIndex a ∨
      (confidenceIndex a = confidenceIndex b ∧
        (maxScore b < maxScore a ∨
          (maxScore a = maxScore b ∧ b.pagination.total < a.pagination.total)))) := by
    intro hcontra
    rw [← keyGT_eq_true_iff] at hcontra
    rw [hcontra] at hab
    exact Bool.false_ne_true hab.symm
  have hbc' : ¬ (confidenceIndex c < confidenceIndex b ∨
      (confidenceIndex b = confidenceIndex c ∧
        (maxScore c < maxScore b ∨
          (maxScore b = maxScore c ∧ c.pagination.total < b.pagination.total)))) := by
    intro hcontra
    rw [← keyGT_eq_true_iff] at hcontra
    rw [hcontra] at hbc
    exact Bool.false_ne_true hbc.symm
  push_neg at hab' hbc'
  rcases (keyGT_eq_true_iff a c).mp hac with hci | ⟨hcieq, hms | ⟨hmseq, ht⟩⟩
  · rcases hab' with ⟨hab1, hab2⟩
    rcases hbc' with ⟨hbc1, hbc2⟩
    omega
  · rcases hab' with ⟨hab1, hab2⟩
    rcases hbc' with ⟨hbc1, hbc2⟩
    have hcab : confidenceIndex a = confidenceIndex b := by omega
    have hcbc : confidenceIndex b = confidenceIndex c := by omega
    have h1 := hab2 hcab
    have h2 := hbc2 hcbc
    rcases h1 with ⟨h1a, _⟩
    rcases h2 with ⟨h2a, _⟩
    linarith
  · rcases hab' with ⟨hab1, hab2⟩
    rcases hbc' with ⟨hbc1, hbc2⟩
    have hcab : confidenceIndex a = confidenceIndex b := by omega
    have hcbc : confidenceIndex b = confidenceIndex c := by omega
    rcases hab2 hcab with ⟨h1a, h1b⟩
    rcases hbc2 hcbc with ⟨h2a, h2b⟩
    have hmab : maxScore a = maxScore b := by linarith
    have hmbc : maxScore b = maxScore c := by linarith
    have := h1b hmab
    have := h2b hmbc
    omega

theorem keyGT_false_iff_keyGE (a b : PoolResult) :
    keyGT b a = false ↔ keyGE a b = true := by
  rw [keyGE_eq_true_iff]
  constructor
  · intro h
    have h' : ¬ (confidenceIndex a < confidenceIndex b ∨
        (confidenceIndex b = confidenceIndex a ∧
          (maxScore a < maxScore b ∨
            (maxScore b = maxScore a ∧ a.pagination.total < b.pagination.total)))) := by
      intro hcontra
      rw [← keyGT_eq_true_iff] at hcontra
      rw [hcontra] at h
      exact Bool.false_ne_true h.symm
    push_neg at h'
    rcases h' with ⟨h1, h2⟩
    rcases Nat.lt_trichotomy (confidenceIndex a) (confidenceIndex b) with hlt | heq | hgt
    · omega
    · rcases h2 heq.symm with ⟨h2a, h2b⟩
      rcases lt_trichotomy (maxScore a) (maxScore b) with hmlt | hmeq | hmgt
      · exact absurd hmlt (not_lt.mpr h2a)
      · exact Or.inr ⟨heq, Or.inr ⟨hmeq, h2b hmeq.symm⟩⟩
      · exact Or.inr ⟨heq, Or.inl hmgt⟩
    · exact Or.inl hgt
  · intro h
    by_contra hcon
    have hba : keyGT b a = true := by
      cases hv : keyGT b a
      · exact absurd hv hcon
      · rfl
    rcases (keyGT_eq_true_iff b a).mp hba with hci | ⟨hcieq, hms | ⟨hmseq, ht⟩⟩ <;>
      rcases h with hci' | ⟨hcieq', hms' | ⟨hmseq', ht'⟩⟩ <;>
        first
          | omega
          | linarith

theorem byNameLess_asym (a b : PoolResult) (h : byNameLess a b = true) :
    byNameLess b a = false := by
  simp only [byNameLess, decide_eq_true_eq] at h
  simp only [byNameLess, decide_eq_false_iff_not]
  exact lt_asymm h

theorem bySequenceLess_asym (pools : List Pool) (a b : PoolResult)
    (h : bySequenceLess pools a b = true) : bySequenceLess pools b a = false := by
  unfold bySequenceLess at h ⊢
  rcases ha : lookupPool pools a.poolName with _ | pa <;>
    rcases hb : lookupPool pools b.poolName with _ | pb <;>
      rw [ha, hb] at h <;> simp_all <;> omega

theorem chain_of_pairwise_bubble {α : Type} {less : α → α → Bool} {matched : α → Bool}
    (hB : ∀ a b, matched a = false → matched b = true → less a b = false) :
    ∀ o : List α, List.Pairwise (fun u v => bubbleRel less matched v u) o →
      o.countP matched ≤ 1 → List.Chain' (fun u v => less v u = false) o
  | [], _, _ => trivial
  | [_], _, _ => List.chain'_singleton _
  | u :: v :: rest, hpw, hcount => by
    rcases List.pairwise_cons.mp hpw with ⟨hu, htail⟩
    have huv := hu v (List.mem_cons_self v rest)
    refine List.chain'_cons.mpr ⟨?_, ?_⟩
    · cases hmv : matched v
      · cases hmu : matched u
        · exact huv.2 hmv hmu
        · exact hB v u hmv hmu
      · have hmu := huv.1 hmv
        exfalso
        have h2 : 2 ≤ (u :: v :: rest).countP matched := by
          simp only [List.countP_cons, hmv, hmu, if_true]
          omega
        omega
    · apply chain_of_pairwise_bubble hB (v :: rest) htail
      have hsplit : (u :: v :: rest).countP matched =
          (v :: rest).countP matched + (if matched u then 1 else 0) := by
        simp [List.countP_cons]
      split at hsplit <;> omega

theorem head_matched_of_pairwise {α : Type} {less : α → α → Bool} {matched : α → Bool}
    (u : α) (rest : List α)
    (hpw : List.Pairwise (fun p q => bubbleRel less matched q p) (u :: rest))
    (hcount : (u :: rest).countP matched = 1) :
    matched u = true ∧ rest.countP matched = 0 := by
  rcases List.pairwise_cons.mp hpw with ⟨hu, _⟩
  cases hmu : matched u
  · exfalso
    have hrest : rest.countP matched = 1 := by
      have := List.countP_cons matched u rest
      rw [hmu] at this
      simp at this
      omega
    have hpos : 0 < rest.countP matched := by omega
    rcases List.countP_pos_iff.mp hpos with ⟨v, hv, hmv⟩
    have := (hu v hv).1 hmv
    rw [hmu] at this
    exact Bool.false_ne_true this
  · constructor
    · rfl
    · have := List.countP_cons matched u rest
      rw [hmu] at this
      simp at this
      omega

/-! ### The byConfidence comparator satisfies the bubble hypotheses -/

theorem byConfidenceLess_hA (targetURL : String) (a b : PoolResult)
    (h : decide (targetURL = a.serviceURL) = true) :
    byConfidenceLess targetURL a b = true := by
  unfold byConfidenceLess
  rw [decide_eq_true_eq] at h
  simp [h]

theorem byConfidenceLess_hB (targetURL : String) (a b : PoolResult)
    (ha : decide (targetURL = a.serviceURL) = false)
    (hb : decide (targetURL = b.serviceURL) = true) :
    byConfidenceLess targetURL a b = false := by
  unfold byConfidenceLess
  rw [decide_eq_false_iff_not] at ha
  rw [decide_eq_true_eq] at hb
  rw [if_neg ha, if_pos hb]

theorem byConfidenceLess_plain (targetURL : String) (a b : PoolResult)
    (ha : decide (targetURL = a.serviceURL) = false)
    (hb : decide (targetURL = b.serviceURL) = false) :
    byConfidenceLess targetURL a b = keyGT a b := by
  unfold byConfidenceLess
  rw [decide_eq_false_iff_not] at ha hb
  simp [ha, hb]

theorem byConfidenceLess_hC (targetURL : String) (a b : PoolResult)
    (ha : decide (targetURL = a.serviceURL) = false)
    (hb : decide (targetURL = b.serviceURL) = false)
    (h : byConfidenceLess targetURL a b = true) :
    byConfidenceLess targetURL b a = false := by
  rw [byConfidenceLess_plain targetURL a b ha hb] at h
  rw [byConfidenceLess_plain targetURL b a hb ha]
  exact keyGT_asym a b h

theorem byConfidenceLess_hD (targetURL : String) (a b c : PoolResult)
    (ha : decide (targetURL = a.serviceURL) = false)
    (hb : decide (targetURL = b.serviceURL) = false)
    (hc : decide (targetURL = c.serviceURL) = false)
    (hab : byConfidenceLess targetURL a b = false)
    (hbc : byConfidenceLess targetURL b c = false) :
    byConfidenceLess targetURL a c = false := by
  rw [byConfidenceLess_plain targetURL a b ha hb] at hab
  rw [byConfidenceLess_plain targetURL b c hb hc] at hbc
  rw [byConfidenceLess_plain targetURL a c ha hc]
  exact keyGT_negtrans a b c hab hbc

/-- The sorted byConfidence output satisfies the flipped bubble invariant
for the predicate matching the target URL. -/
theorem sortGo_byConfidence_pairwise (targetURL : String) (l : List PoolResult) :
    List.Pairwise
      (fun u v => bubbleRel (byConfidenceLess targetURL)
        (fun r => decide (targetURL = r.serviceURL)) v u)
      (sortGo (byConfidenceLess targetURL) l) :=
  sortGo_pairwise
    (byConfidenceLess_hA targetURL)
    (byConfidenceLess_hB targetURL)
    (byConfidenceLess_hC targetURL)
    (byConfidenceLess_hD targetURL)
    l

/-! ## Claim theorems -/

theorem collectResults_spec :
    ∀ (rs : List PoolResult) (out : MasterResponse),
      (collectResults out rs).totalHits =
        out.totalHits +
          ((rs.filter (fun r => r.statusCode == 200)).map
            (fun r => r.pagination.total)).sum ∧
      (collectResults out rs).warnings =
        out.warnings ++
          (rs.filter (fun r => r.statusCode != 200)).map (fun r => r.statusMessage) ∧
      (collectResults out rs).results = out.results ++ rs ∧
      (collectResults out rs).pools = out.pools
  | [], out => by simp [collectResults]
  | r :: rest, out => by
    have ih := collectResults_spec rest (collectResult out r)
    have hfold : collectResults out (r :: rest) =
        collectResults (collectResult out r) rest := rfl
    rw [hfold]
    by_cases h : r.statusCode = 200
    · have hstep : collectResult out r =
          { out with results := out.results ++ [r],
                     totalHits := out.totalHits + r.pagination.total } := by
        simp [collectResult, h]
      rw [hstep]
      rw [hstep] at ih
      rcases ih with ⟨ih1, ih2, ih3, ih4⟩
      refine ⟨?_, ?_, ?_, ?_⟩
      · rw [ih1]
        simp [List.filter_cons, h]
        omega
      · rw [ih2]
        simp [List.filter_cons, h]
      · rw [ih3]
        simp
      · exact ih4
    · have hstep : collectResult out r =
          { out with results := out.results ++ [r],
                     warnings := out.warnings ++ [r.statusMessage] } := by
        simp [collectResult, h]
      rw [hstep]
      rw [hstep] at ih
      rcases ih with ⟨ih1, ih2, ih3, ih4⟩
      refine ⟨?_, ?_, ?_, ?_⟩
      · rw [ih1]
        simp [List.filter_cons, h]
      · rw [ih2]
        simp [List.filter_cons, h]
      · rw [ih3]
        simp
      · exact ih4

/-- C1.  The collection loop of Search, run from a fresh search response
(whatever pools and prior warnings it already carries), yields a total
hit count equal to the sum of pagination totals over exactly the
collected results with status 200, and appends to the warnings exactly
the status messages of the collected results whose status is not 200, in
arrival order. -/
theorem c1_search_totals_and_warnings
    (pools0 : List PoolIdentity) (warnings0 : List String) (rs : List PoolResult) :
    (collectResults { newSearchResponse with pools := pools0, warnings := warnings0 } rs).totalHits =
      ((rs.filter (fun r => r.statusCode == 200)).map (fun r => r.pagination.total)).sum ∧
    (collectResults { newSearchResponse with pools := pools0, warnings := warnings0 } rs).warnings =
      warnings0 ++ (rs.filter (fun r => r.statusCode != 200)).map (fun r => r.statusMessage) := by
  have h := collectResults_spec rs { newSearchResponse with pools := pools0, warnings := warnings0 }
  rcases h with ⟨h1, h2, _, _⟩
  constructor
  · rw [h1]
    simp [newSearchResponse]
  · rw [h2]

theorem fanOutPools_fold (prefs : SearchPreferences) :
    ∀ (pools : List Pool) (st : FanOutState),
      pools.foldl
        (fun st p =>
          let st1 := { st with pools := st.pools ++ [p.v4id] }
          if isPoolExcluded prefs p then st1
          else { st1 with dispatched := st1.dispatched ++ [p] })
        st =
      { pools := st.pools ++ pools.map (fun p => p.v4id),
        dispatched := st.dispatched ++ pools.filter (fun p => !isPoolExcluded prefs p) }
  | [], st => by simp
  | p :: rest, st => by
    rw [List.foldl_cons, fanOutPools_fold prefs rest]
    by_cases h : isPoolExcluded prefs p = true
    · simp [h, List.filter_cons]
    · have h' : isPoolExcluded prefs p = false := by
        cases hv : isPoolExcluded prefs p
        · rfl
        · exact absurd hv h
      simp [h', List.filter_cons]

theorem fanOutPools_eq (prefs : SearchPreferences) (pools : List Pool) :
    fanOutPools prefs pools =
      { pools := pools.map (fun p => p.v4id),
        dispatched := pools.filter (fun p => !isPoolExcluded prefs p) } := by
  unfold fanOutPools
  rw [fanOutPools_fold prefs pools]
  simp

theorem isPoolExcluded_iff (prefs : SearchPreferences) (p : Pool) :
    isPoolExcluded prefs p = true ↔
      ∃ identifier ∈ prefs.excludePools,
        identifier = p.v4id.id ∨ identifier = p.v4id.url := by
  unfold isPoolExcluded
  rw [List.any_eq_true]
  constructor
  · rintro ⟨identifier, hmem, hor⟩
    rcases Bool.or_eq_true _ _ |>.mp hor with hurl | hid
    · exact ⟨identifier, hmem, Or.inr (by simpa using hurl)⟩
    · exact ⟨identifier, hmem, Or.inl (by simpa using hid)⟩
  · rintro ⟨identifier, hmem, hid | hurl⟩
    · exact ⟨identifier, hmem, Bool.or_eq_true _ _ |>.mpr (Or.inr (by simpa using hid))⟩
    · exact ⟨identifier, hmem, Bool.or_eq_true _ _ |>.mpr (Or.inl (by simpa using hurl))⟩

/-- C2.  In the fan-out loop of Search, a pool named in exclude_pool by
its id or its public URL is never dispatched, while its identity still
joins the response's pools list; every pool not so named is dispatched. -/
theorem c2_exclusion (prefs : SearchPreferences) (pools : List Pool) (p : Pool)
    (hmem : p ∈ pools) :
    ((∃ identifier ∈ prefs.excludePools,
        identifier = p.v4id.id ∨ identifier = p.v4id.url) →
      p ∉ (fanOutPools prefs pools).dispatched ∧
        p.v4id ∈ (fanOutPools prefs pools).pools) ∧
    (¬ (∃ identifier ∈ prefs.excludePools,
        identifier = p.v4id.id ∨ identifier = p.v4id.url) →
      p ∈ (fanOutPools prefs pools).dispatched) := by
  rw [fanOutPools_eq]
  constructor
  · intro hex
    have hx : isPoolExcluded prefs p = true := (isPoolExcluded_iff prefs p).mpr hex
    constructor
    · intro hmemd
      have := List.of_mem_filter hmemd
      rw [hx] at this
      simp at this
    · exact List.mem_map.mpr ⟨p, hmem, rfl⟩
  · intro hex
    have hx : isPoolExcluded prefs p = false := by
      cases hv : isPoolExcluded prefs p
      · rfl
      · exact absurd ((isPoolExcluded_iff prefs p).mp hv) hex
    exact List.mem_filter.mpr ⟨hmem, by simp [hx]⟩

theorem c2_exclusion_witness :
    (let prefs : SearchPreferences := { targetPool := "", excludePools := ["https://b.example"] }
     let pb : Pool :=
       { v4id := { id := "b", name := "B", url := "https://b.example", source := "solr",
                   attributes := [] },
         privateURL := "http://b.internal", isExternal := false, sequence := 2 }
     let pa : Pool :=
       { v4id := { id := "a", name := "A", url := "https://a.example", source := "solr",
                   attributes := [] },
         privateURL := "http://a.internal", isExternal := false, sequence := 1 }
     pb ∉ (fanOutPools prefs [pa, pb]).dispatched ∧
       pb.v4id ∈ (fanOutPools prefs [pa, pb]).pools ∧
       pa ∈ (fanOutPools prefs [pa, pb]).dispatched) := by
  refine ⟨?_, ?_, ?_⟩
  · exact ((c2_exclusion _ _ _ (by simp)).1 ⟨"https://b.example", by simp, Or.inr rfl⟩).1
  · exact ((c2_exclusion _ _ _ (by simp)).1 ⟨"https://b.example", by simp, Or.inr rfl⟩).2
  · exact (c2_exclusion _ _ _ (by simp [List.mem_cons])).2 (by decide)

/-- C6.  The final ordering of pool results is selected by the sources
query parameter: the value default picks the byConfidence strategy, and
any other value, including the empty string that gin returns for an
absent parameter, picks the bySequence strategy. -/
theorem c6_sort_selection (sourcesParam : String) (pools : List Pool)
    (targetURL : String) (results : List PoolResult) :
    (sourcesParam = "default" →
      sortPoolResults sourcesParam pools targetURL results =
        sortGo (byConfidenceLess targetURL) results) ∧
    (sourcesParam ≠ "default" →
      sortPoolResults sourcesParam pools targetURL results =
        sortGo (bySequenceLess pools) results) := by
  constructor
  · intro h
    simp [sortPoolResults, h]
  · intro h
    simp [sortPoolResults, h]

theorem c6_sort_selection_witness :
    sortPoolResults "default" [] "t" [] = sortGo (byConfidenceLess "t") [] ∧
    sortPoolResults "" [] "t" [] = sortGo (bySequenceLess []) [] :=
  ⟨(c6_sort_selection "default" [] "t" []).1 rfl,
   (c6_sort_selection "" [] "t" []).2 (by decide)⟩

/-- C8.  When no registry entry is identified, the pools middleware
aborts the request with status 404 and never proceeds to a downstream
handler. -/
theorem c8_no_pools_aborts (arrivals : List (Option Pool))
    (hall : ∀ r ∈ arrivals, r = none) :
    poolsMiddleware (lookupPoolsCollect arrivals) = .abort 404 := by
  have hempty : arrivals.filterMap id = [] := by
    rw [List.filterMap_eq_nil_iff]
    intro a ha
    rw [hall a ha]
    rfl
  unfold lookupPoolsCollect
  rw [hempty]
  rfl

theorem c8_no_pools_aborts_witness :
    poolsMiddleware (lookupPoolsCollect [none, none]) = .abort 404 :=
  c8_no_pools_aborts [none, none] (by simp)

theorem firstIdentified_single (attempt : String → IdOutcome) (lang : String) :
    firstIdentified attempt [lang] =
      match attempt lang with
      | .identified ident => some ident
      | _ => none := by
  cases h : attempt lang <;> simp [firstIdentified, h]

theorem firstIdentified_cons_failed (attempt : String → IdOutcome) (lang : String)
    (rest : List String) (h : idOutcomeFailed (attempt lang) = true) :
    firstIdentified attempt (lang :: rest) = firstIdentified attempt rest := by
  cases hL : attempt lang
  · simp [firstIdentified, hL]
  · simp [firstIdentified, hL]
  · simp [firstIdentified, hL]
  · rw [hL] at h
    simp [idOutcomeFailed] at h

/-- C7.  With Accept-Language L different from en-US, a failed identify
attempt in L is retried exactly once in en-US; an entry failing both
attempts yields no pool, such an entry contributes nothing to the pools
the resolver collects, and every pool of a successful resolver output is
the payload of some successful identification arrival. -/
theorem c7_identify_fallback (dbp : DbPool) (L : String) (attempt : String → IdOutcome) :
    (L ≠ "en-US" → idOutcomeFailed (attempt L) = true →
      identifyPool dbp L attempt =
        (match attempt "en-US" with
         | .identified ident => some (mkIdentifiedPool dbp ident)
         | _ => none)) ∧
    (idOutcomeFailed (attempt L) = true → idOutcomeFailed (attempt "en-US") = true →
      identifyPool dbp L attempt = none) ∧
    (identifyPool dbp L attempt = none →
      ∀ (pre post : List (Option Pool)),
        (pre ++ identifyPool dbp L attempt :: post).filterMap id =
          (pre ++ post).filterMap id) ∧
    (∀ (arrivals : List (Option Pool)) (out : List Pool),
      lookupPoolsCollect arrivals = .ok out → ∀ q ∈ out, some q ∈ arrivals) := by
  have hmain : L ≠ "en-US" → idOutcomeFailed (attempt L) = true →
      identifyPool dbp L attempt =
        (match attempt "en-US" with
         | .identified ident => some (mkIdentifiedPool dbp ident)
         | _ => none) := by
    intro hne hfail
    unfold identifyPool identifyLanguages
    rw [if_pos hne, firstIdentified_cons_failed attempt L ["en-US"] hfail,
      firstIdentified_single]
    cases hE : attempt "en-US" <;> simp
  refine ⟨hmain, ?_, ?_, ?_⟩
  · intro hfailL hfailE
    by_cases hne : L = "en-US"
    · subst hne
      unfold identifyPool identifyLanguages
      rw [if_neg (by simp), firstIdentified_single]
      cases hE : attempt "en-US"
      · simp
      · simp
      · simp
      · rw [hE] at hfailL
        simp [idOutcomeFailed] at hfailL
    · rw [hmain hne hfailL]
      cases hE : attempt "en-US"
      · simp
      · simp
      · simp
      · rw [hE] at hfailE
        simp [idOutcomeFailed] at hfailE
  · intro hnone pre post
    rw [hnone]
    simp [List.filterMap_append]
  · intro arrivals out h q hq
    by_cases hemp : (arrivals.filterMap id).isEmpty
    · simp [lookupPoolsCollect, hemp] at h
    · simp only [lookupPoolsCollect, hemp, if_false, Bool.false_eq_true,
        if_neg, Except.ok.injEq] at h
      rw [← h] at hq
      rcases List.mem_filterMap.mp hq with ⟨a, ha, hid⟩
      cases a
      · simp at hid
      · simp only [id] at hid
        rw [hid] at ha
        exact ha

/-- Registry row used by the concrete identify scenarios. -/
def dbpEx : DbPool :=
  { rowID := 7, privateURL := "http://poola.internal", publicURL := "https://poola",
    name := "poola", sequence := 1 }

/-- An attempt function that fails in Spanish with a transport error and
in en-US with a 503. -/
def attemptBothFail : String → IdOutcome :=
  fun lang => if lang = "es" then .transportErr else .badStatus 503

/-- An identity as parsed from a successful identify body. -/
def identEx : PoolIdentity :=
  { id := "", name := "Pool A", url := "", source := "solr", attributes := [] }

theorem c7_identify_fallback_witness :
    identifyPool dbpEx "es" attemptBothFail = none ∧
    ([some (mkIdentifiedPool dbpEx identEx)] ++
        identifyPool dbpEx "es" attemptBothFail :: []).filterMap id =
      ([some (mkIdentifiedPool dbpEx identEx)] ++ []).filterMap id := by
  have h := c7_identify_fallback dbpEx "es" attemptBothFail
  have hnone : identifyPool dbpEx "es" attemptBothFail = none :=
    h.2.1 (by decide) (by decide)
  exact ⟨hnone, h.2.2.1 hnone _ _⟩

/-- Pool used by the concrete transport-shaping scenarios. -/
def poolEx : Pool :=
  { v4id := { id := "x", name := "X", url := "https://x.example", source := "solr",
              attributes := [] },
    privateURL := "http://pool.internal", isExternal := false, sequence := 1 }

/-- C4 as frozen is false on the code: a transport error matching neither
substring yields status 500, not the claimed 400, and the timeout message
is built from the full POST search URL, not the bare private URL. -/
theorem c4_counterexample :
    (searchPoolTask poolEx "en-US" (.failure "no route to host") 5 (fun _ => none)).statusCode
        = 500 ∧
    (searchPoolTask poolEx "en-US" (.failure "no route to host") 5 (fun _ => none)).statusCode
        ≠ 400 ∧
    (searchPoolTask poolEx "en-US" (.failure "Client.Timeout exceeded") 5
        (fun _ => none)).statusMessage
        = "POST http://pool.internal/api/search search timed out" ∧
    (searchPoolTask poolEx "en-US" (.failure "Client.Timeout exceeded") 5
        (fun _ => none)).statusMessage
        ≠ "http://pool.internal search timed out" := by
  decide

/-- C4 amended.  A transport error containing Timeout yields 408 with
message POST {private_url}/api/search search timed out; otherwise one
containing connection refused yields 503 with message
{private_url}/api/search is offline; any other transport error yields
500 with the underlying error text; and a 200 response whose body fails
to parse yields 500 with message Malformed search response. -/
theorem c4_amended (p : Pool) (acceptLang : String) (ms : Int)
    (parse : String → Option PoolResult) (errText : String) :
    (containsStr errText "Timeout" = true →
      (searchPoolTask p acceptLang (.failure errText) ms parse).statusCode = 408 ∧
      (searchPoolTask p acceptLang (.failure errText) ms parse).statusMessage =
        "POST " ++ p.privateURL ++ "/api/search search timed out") ∧
    (containsStr errText "Timeout" = false →
      containsStr errText "connection refused" = true →
      (searchPoolTask p acceptLang (.failure errText) ms parse).statusCode = 503 ∧
      (searchPoolTask p acceptLang (.failure errText) ms parse).statusMessage =
        p.privateURL ++ "/api/search is offline") ∧
    (containsStr errText "Timeout" = false →
      containsStr errText "connection refused" = false →
      (searchPoolTask p acceptLang (.failure errText) ms parse).statusCode = 500 ∧
      (searchPoolTask p acceptLang (.failure errText) ms parse).statusMessage = errText) ∧
    (∀ body lang, parse body = none →
      (searchPoolTask p acceptLang (.success 200 body lang) ms parse).statusCode = 500 ∧
      (searchPoolTask p acceptLang (.success 200 body lang) ms parse).statusMessage =
        "Malformed search response") := by
  refine ⟨?_, ?_, ?_, ?_⟩
  · intro ht
    simp only [searchPoolTask, searchPoolResult, servicePost, searchURL, ht]
    refine ⟨by simp, ?_⟩
    simp only [String.append_assoc]
    rfl
  · intro ht hr
    simp only [searchPoolTask, searchPoolResult, servicePost, searchURL, ht, hr]
    refine ⟨by simp, ?_⟩
    simp only [String.append_assoc]
    rfl
  · intro ht hr
    simp [searchPoolTask, searchPoolResult, servicePost, searchURL, ht, hr]
  · intro body lang hparse
    simp [searchPoolTask, searchPoolResult, servicePost, searchURL, hparse]

theorem c4_amended_witness :
    ((searchPoolTask poolEx "en-US" (.failure "Client.Timeout exceeded") 5
        (fun _ => none)).statusCode = 408 ∧
      (searchPoolTask poolEx "en-US" (.failure "Client.Timeout exceeded") 5
        (fun _ => none)).statusMessage =
        "POST " ++ poolEx.privateURL ++ "/api/search search timed out") ∧
    ((searchPoolTask poolEx "en-US" (.failure "dial tcp: connection refused") 5
        (fun _ => none)).statusCode = 503 ∧
      (searchPoolTask poolEx "en-US" (.failure "dial tcp: connection refused") 5
        (fun _ => none)).statusMessage = poolEx.privateURL ++ "/api/search is offline") ∧
    ((searchPoolTask poolEx "en-US" (.failure "no route to host") 5
        (fun _ => none)).statusCode = 500 ∧
      (searchPoolTask poolEx "en-US" (.failure "no route to host") 5
        (fun _ => none)).statusMessage = "no route to host") ∧
    ((searchPoolTask poolEx "en-US" (.success 200 "oops" "fr") 5
        (fun _ => none)).statusCode = 500 ∧
      (searchPoolTask poolEx "en-US" (.success 200 "oops" "fr") 5
        (fun _ => none)).statusMessage = "Malformed search response") := by
  refine ⟨?_, ?_, ?_, ?_⟩
  · exact (c4_amended poolEx "en-US" 5 (fun _ => none) "Client.Timeout exceeded").1 (by decide)
  · exact (c4_amended poolEx "en-US" 5 (fun _ => none) "dial tcp: connection refused").2.1
      (by decide) (by decide)
  · exact (c4_amended poolEx "en-US" 5 (fun _ => none) "no route to host").2.2.1
      (by decide) (by decide)
  · exact (c4_amended poolEx "en-US" 5 (fun _ => none) "oops").2.2.2 "oops" "fr" rfl

/-- C10 as frozen is false on the code: a 200 response whose body fails
to parse leaves the pool result's content language empty even when the
pool sent a Content-Language header. -/
theorem c10_counterexample :
    (searchPoolTask poolEx "en-GB" (.success 200 "not json" "fr") 4
        (fun _ => none)).contentLanguage = "" ∧
    ("" : String) ≠ "fr" := by
  decide

/-- C10 amended.  For a per-pool search whose HTTP response has status
200 and whose body parses, the recorded content language is the pool's
Content-Language header when non-empty, else the forwarded
Accept-Language header when non-empty, else en-US; it is never empty. -/
theorem c10_amended (p : Pool) (acceptLang body lang : String) (ms : Int)
    (parse : String → Option PoolResult) (r : PoolResult)
    (hparse : parse body = some r) :
    (searchPoolTask p acceptLang (.success 200 body lang) ms parse).contentLanguage =
      (if lang ≠ "" then lang else if acceptLang ≠ "" then acceptLang else "en-US") ∧
    (searchPoolTask p acceptLang (.success 200 body lang) ms parse).contentLanguage ≠ "" := by
  have hval : (searchPoolTask p acceptLang (.success 200 body lang) ms parse).contentLanguage =
      (if lang ≠ "" then lang else if acceptLang ≠ "" then acceptLang else "en-US") := by
    simp [searchPoolTask, searchPoolResult, servicePost, searchURL, hparse]
  refine ⟨hval, ?_⟩
  rw [hval]
  by_cases hl : lang = ""
  · by_cases ha : acceptLang = ""
    · simp [hl, ha]
    · simp [hl, ha]
  · simp [hl]

theorem c10_amended_witness :
    (searchPoolTask poolEx "en-GB" (.success 200 "body" "fr") 4
        (fun _ => some (newPoolResult poolEx 0))).contentLanguage = "fr" ∧
    (searchPoolTask poolEx "en-GB" (.success 200 "body" "") 4
        (fun _ => some (newPoolResult poolEx 0))).contentLanguage = "en-GB" := by
  constructor
  · have h := (c10_amended poolEx "en-GB" "body" "fr" 4
      (fun _ => some (newPoolResult poolEx 0)) (newPoolResult poolEx 0) rfl).1
    rw [h]
    decide
  · have h := (c10_amended poolEx "en-GB" "body" "" 4
      (fun _ => some (newPoolResult poolEx 0)) (newPoolResult poolEx 0) rfl).1
    rw [h]
    decide

theorem length_filterMap_eq_iff {σ τ : Type} (f : σ → Option τ) :
    ∀ L : List σ, ((L.filterMap f).length = L.length ↔ ∀ s ∈ L, (f s).isSome)
  | [] => by simp
  | a :: L => by
    cases h : f a
    · have hle := List.length_filterMap_le f L
      simp only [List.filterMap_cons, h, List.length_cons]
      constructor
      · intro hlen
        omega
      · intro hall
        have := hall a (List.mem_cons_self a L)
        rw [h] at this
        simp at this
    · simp only [List.filterMap_cons, h, List.length_cons]
      constructor
      · intro hlen
        intro s hs
        rcases List.mem_cons.mp hs with hsa | hsL
        · subst hsa
          rw [h]
          rfl
        · exact (length_filterMap_eq_iff f L).mp (by omega) s hsL
      · intro hall
        have : (L.filterMap f).length = L.length :=
          (length_filterMap_eq_iff f L).mpr (fun s hs => hall s (List.mem_cons_of_mem a hs))
        omega

theorem gatherStep_isSome_iff (pools : List Pool) (fetch : Pool → Option (List Facet))
    (source : String) :
    (gatherStep pools fetch source).isSome ↔
      ∃ p, findRepresentative pools source = some p ∧ (getPoolFilters p fetch).isSome := by
  unfold gatherStep
  cases hrep : findRepresentative pools source
  · simp
  · rename_i p
    cases hflt : getPoolFilters p fetch
    · simp [hflt]
    · simp [hflt]

/-- C5 as frozen is false on the code: the refresh sanity check compares
the response count against the full three-element source-kind list, so a
tick on which a source kind has no representative pool always retains
the prior snapshot.  With a single solr pool answering with a non-empty
filter list, the snapshot stays empty although a merge of the remaining
source kinds would be non-empty. -/
theorem c5_counterexample :
    (let solrOnly : List Pool :=
      [{ v4id := { id := "solrpool", name := "Solr", url := "https://solr.example",
                   source := "solr", attributes := [] },
         privateURL := "http://solr.internal", isExternal := false, sequence := 1 }]
     let fetchOne : Pool → Option (List Facet) :=
       fun _ => some [{ id := "FilterLibrary", name := "Library", sort := "alpha",
                        hidden := false, buckets := [{ value := "UVA", count := 3 }] }]
     gatherFilterResps solrOnly fetchOne =
        [("solr", [{ id := "FilterLibrary", name := "Library", sort := "alpha",
                     hidden := false, buckets := [{ value := "UVA", count := 3 }] }])] ∧
      refreshCache [] solrOnly fetchOne = [] ∧
      mergeFilters (gatherFilterResps solrOnly fetchOne) ≠ []) := by
  decide

/-- C5 amended.  Per refresh tick, each source kind of the preference
list queries exactly its first representative pool in pool-set order and
kinds with no representative dispatch nothing; the snapshot is replaced
by the merge exactly when all three source kinds have a representative
whose query returned a usable filter list, and is otherwise retained
unchanged — a tick on which some source kind has no representative never
completes a refresh. -/
theorem c5_amended (prev : List QueryFilter) (pools : List Pool)
    (fetch : Pool → Option (List Facet)) :
    ((¬ ∀ s ∈ filterSourceKinds, ∃ p, findRepresentative pools s = some p ∧
        (getPoolFilters p fetch).isSome) →
      refreshCache prev pools fetch = prev) ∧
    ((∀ s ∈ filterSourceKinds, ∃ p, findRepresentative pools s = some p ∧
        (getPoolFilters p fetch).isSome) →
      refreshCache prev pools fetch = mergeFilters (gatherFilterResps pools fetch)) := by
  have hiff : ((gatherFilterResps pools fetch).length = filterSourceKinds.length) ↔
      ∀ s ∈ filterSourceKinds, ∃ p, findRepresentative pools s = some p ∧
        (getPoolFilters p fetch).isSome := by
    unfold gatherFilterResps
    rw [length_filterMap_eq_iff (gatherStep pools fetch) filterSourceKinds]
    constructor
    · intro hall s hs
      exact (gatherStep_isSome_iff pools fetch s).mp (hall s hs)
    · intro hall s hs
      exact (gatherStep_isSome_iff pools fetch s).mpr (hall s hs)
  constructor
  · intro hnot
    unfold refreshCache
    rw [if_neg (fun hlen => hnot (hiff.mp hlen))]
  · intro hall
    unfold refreshCache
    rw [if_pos (hiff.mpr hall)]

/-- Pools used by the positive refresh scenario: one of each source kind. -/
def threeKindPools : List Pool :=
  [{ v4id := { id := "solrpool", name := "Solr", url := "https://solr.example",
               source := "solr", attributes := [] },
     privateURL := "http://solr.internal", isExternal := false, sequence := 1 },
   { v4id := { id := "imagepool", name := "Images", url := "https://img.example",
               source := "solr-images", attributes := [] },
     privateURL := "http://img.internal", isExternal := false, sequence := 2 },
   { v4id := { id := "edspool", name := "Articles", url := "https://eds.example",
               source := "eds", attributes := [] },
     privateURL := "http://eds.internal", isExternal := true, sequence := 3 }]

/-- A fetch returning one allow-listed facet for every pool. -/
def fetchLanguage : Pool → Option (List Facet) :=
  fun _ => some [{ id := "Language", name := "Language", sort := "",
                   hidden := false, buckets := [{ value := "English", count := 5 }] }]

theorem c5_amended_witness :
    refreshCache [] [] fetchLanguage = [] ∧
    refreshCache [] threeKindPools fetchLanguage =
      mergeFilters (gatherFilterResps threeKindPools fetchLanguage) := by
  constructor
  · exact (c5_amended [] [] fetchLanguage).1 (by decide)
  · exact (c5_amended [] threeKindPools fetchLanguage).2 (by decide)

/-- A low-confidence result whose service URL is the target of the
concrete byConfidence scenarios. -/
def rLowTargetEx : PoolResult :=
  { serviceURL := "https://x.example", poolName := "x", elapsedMS := 0,
    pagination := { start := 0, rows := 0, total := 2 }, confidence := "low",
    debug := [], warnings := [], statusCode := 200, statusMessage := "",
    contentLanguage := "" }

/-- A high-confidence result that is not the target. -/
def rHighEx : PoolResult :=
  { serviceURL := "https://z.example", poolName := "z", elapsedMS := 0,
    pagination := { start := 0, rows := 0, total := 9 }, confidence := "high",
    debug := [], warnings := [], statusCode := 200, statusMessage := "",
    contentLanguage := "" }

/-- C3 as frozen is false on the code: bubbling a low-confidence target
above a high-confidence result puts a lexicographically smaller tuple at
position 0, so the claimed tuple monotonicity fails between positions 0
and 1 even though the target does occupy position 0. -/
theorem c3_counterexample :
    sortGo (byConfidenceLess "https://x.example") [rHighEx, rLowTargetEx] =
      [rLowTargetEx, rHighEx] ∧
    keyGE rLowTargetEx rHighEx = false := by
  decide

/-- C3 amended.  In the byConfidence output, the
(confidence_index, max_score, total) tuples are lexicographically
non-increasing over every pair of positions that both hold non-target
results; and when exactly one input result carries the target service
URL, that result occupies position 0 and no later position matches the
target. -/
theorem c3_amended (targetURL : String) (l : List PoolResult) :
    List.Pairwise
      (fun u v => targetURL ≠ u.serviceURL → targetURL ≠ v.serviceURL →
        keyGE u v = true)
      (sortGo (byConfidenceLess targetURL) l) ∧
    (l.countP (fun r => decide (targetURL = r.serviceURL)) = 1 →
      ∀ r rest, sortGo (byConfidenceLess targetURL) l = r :: rest →
        targetURL = r.serviceURL ∧
          rest.countP (fun r => decide (targetURL = r.serviceURL)) = 0) := by
  have hpw := sortGo_byConfidence_pairwise targetURL l
  constructor
  · refine hpw.imp ?_
    intro u v hrel hu hv
    have hu' : decide (targetURL = u.serviceURL) = false := by
      simp [hu]
    have hv' : decide (targetURL = v.serviceURL) = false := by
      simp [hv]
    have hless : byConfidenceLess targetURL v u = false := hrel.2 hv' hu'
    rw [byConfidenceLess_plain targetURL v u hv' hu'] at hless
    exact (keyGT_false_iff_keyGE u v).mp hless
  · intro hcount r rest heq
    have hcount' :
        ((sortGo (byConfidenceLess targetURL) l).countP
          (fun r => decide (targetURL = r.serviceURL))) = 1 := by
      rw [(sortGo_perm (byConfidenceLess targetURL) l).countP_eq]
      exact hcount
    rw [heq] at hcount' hpw
    have hhead := head_matched_of_pairwise r rest hpw hcount'
    refine ⟨?_, hhead.2⟩
    have := hhead.1
    simpa using this

theorem c3_amended_witness :
    List.Pairwise
      (fun u v => "https://x.example" ≠ u.serviceURL →
        "https://x.example" ≠ v.serviceURL → keyGE u v = true)
      (sortGo (byConfidenceLess "https://x.example") [rHighEx, rLowTargetEx]) ∧
    "https://x.example" = rLowTargetEx.serviceURL := by
  have h := c3_amended "https://x.example" [rHighEx, rLowTargetEx]
  exact ⟨h.1, (h.2 (by decide) rLowTargetEx [rHighEx] (by decide)).1⟩

/-- Two distinct results that both carry the target service URL. -/
def rTargetOne : PoolResult :=
  { serviceURL := "https://t.example", poolName := "t1", elapsedMS := 0,
    pagination := { start := 0, rows := 0, total := 1 }, confidence := "high",
    debug := [], warnings := [], statusCode := 200, statusMessage := "",
    contentLanguage := "" }

/-- The second target-bearing result, differing in its total. -/
def rTargetTwo : PoolResult :=
  { serviceURL := "https://t.example", poolName := "t2", elapsedMS := 0,
    pagination := { start := 0, rows := 0, total := 2 }, confidence := "high",
    debug := [], warnings := [], statusCode := 200, statusMessage := "",
    contentLanguage := "" }

/-- C9 as frozen is false on the code: with two results sharing the
target service URL the byConfidence comparator holds in both directions,
so each sort pass of go insertion sort swaps the pair and re-sorting the
sorted output changes it. -/
theorem c9_counterexample :
    sortGo (byConfidenceLess "https://t.example")
        (sortGo (byConfidenceLess "https://t.example") [rTargetOne, rTargetTwo]) ≠
      sortGo (byConfidenceLess "https://t.example") [rTargetOne, rTargetTwo] := by
  decide

/-- C9 amended.  Re-sorting its own output is the identity for the
bySequence and byName strategies on every result list, and for the
byConfidence strategy on every list in which at most one result carries
the target service URL. -/
theorem c9_amended :
    (∀ (pools : List Pool) (l : List PoolResult),
      sortGo (bySequenceLess pools) (sortGo (bySequenceLess pools) l) =
        sortGo (bySequenceLess pools) l) ∧
    (∀ l : List PoolResult,
      sortGo byNameLess (sortGo byNameLess l) = sortGo byNameLess l) ∧
    (∀ (targetURL : String) (l : List PoolResult),
      l.countP (fun r => decide (targetURL = r.serviceURL)) ≤ 1 →
      sortGo (byConfidenceLess targetURL)
          (sortGo (byConfidenceLess targetURL) l) =
        sortGo (byConfidenceLess targetURL) l) := by
  refine ⟨?_, ?_, ?_⟩
  · intro pools l
    exact sortGo_idem_of_asym (bySequenceLess_asym pools) l
  · intro l
    exact sortGo_idem_of_asym byNameLess_asym l
  · intro targetURL l hcount
    have hpw := sortGo_byConfidence_pairwise targetURL l
    have hcount' :
        ((sortGo (byConfidenceLess targetURL) l).countP
          (fun r => decide (targetURL = r.serviceURL))) ≤ 1 := by
      rw [(sortGo_perm (byConfidenceLess targetURL) l).countP_eq]
      exact hcount
    have hch := chain_of_pairwise_bubble (byConfidenceLess_hB targetURL)
      (sortGo (byConfidenceLess targetURL) l) hpw hcount'
    exact sortGo_of_chain _ hch

theorem c9_amended_witness :
    sortGo (bySequenceLess []) (sortGo (bySequenceLess []) [rHighEx, rLowTargetEx]) =
      sortGo (bySequenceLess []) [rHighEx, rLowTargetEx] ∧
    sortGo byNameLess (sortGo byNameLess [rHighEx]) = sortGo byNameLess [rHighEx] ∧
    sortGo (byConfidenceLess "https://t.example")
        (sortGo (byConfidenceLess "https://t.example") [rHighEx, rLowTargetEx]) =
      sortGo (byConfidenceLess "https://t.example") [rHighEx, rLowTargetEx] :=
  ⟨c9_amended.1 [] [rHighEx, rLowTargetEx],
   c9_amended.2.1 [rHighEx],
   c9_amended.2.2 "https://t.example" [rHighEx, rLowTargetEx] (by decide)⟩
